import Mathlib

/-!
Verification of the leptos-motion repository's visible Python logic:
the version-consistency checker (scripts/check-version-consistency.py)
and the three static dev server variants
(examples/capability-showcase/serve.py, examples/comprehensive-demo/serve.py,
examples/webgl-demo/server.py).

The scripts are embedded shallowly: parsed TOML documents become an
inductive value type, the filesystem becomes a function from path to file
content, and each script's observable behaviour (stdout lines, exit code,
response headers, log suppression) becomes a pure Lean function.
-/

set_option maxHeartbeats 1000000

namespace LeptosMotion

mutual
/-- A parsed TOML value, as `toml.load` produces it: Python strings,
booleans, and dicts (tables).  Only these shapes occur in the manifests
the checker reads; a table is a sequence of key/value entries. -/
inductive Toml where
  | str (s : String)
  | bool (b : Bool)
  | table (entries : Entries)

/-- The ordered key/value entries of a parsed TOML table. -/
inductive Entries where
  | nil
  | cons (k : String) (v : Toml) (rest : Entries)
end

mutual
/-- Python `==` / `!=` on the values `toml.load` returns: structural
equality; values of different runtime type (e.g. a dict and a str) are
never equal. -/
def tomlBEq : Toml → Toml → Bool
  | .str a, .str b => a == b
  | .bool a, .bool b => a == b
  | .table a, .table b => entriesBEq a b
  | _, _ => false

/-- Equality of two tables, entry by entry. -/
def entriesBEq : Entries → Entries → Bool
  | .nil, .nil => true
  | .cons k1 v1 r1, .cons k2 v2 r2 =>
      k1 == k2 && tomlBEq v1 v2 && entriesBEq r1 r2
  | _, _ => false
end

/-- A single-quote character, written via its code point. -/
def squote : String := String.singleton (Char.ofNat 39)

/-- Opening brace character of a Python dict repr. -/
def lbrace : String := String.singleton (Char.ofNat 123)

/-- Closing brace character of a Python dict repr. -/
def rbrace : String := String.singleton (Char.ofNat 125)

mutual
/-- Python `repr` of a parsed TOML value (as used for values nested in a
dict): strings are single-quoted, booleans render as `True`/`False`,
dicts render brace-delimited with comma-separated `key: value` pairs.
(String escaping inside quotes is not modelled; manifest version values
contain no quotes or backslashes.) -/
def pyRepr : Toml → String
  | .str s => squote ++ s ++ squote
  | .bool b => if b then "True" else "False"
  | .table es => lbrace ++ pyReprEntries es ++ rbrace

/-- The comma-separated body of a Python dict repr. -/
def pyReprEntries : Entries → String
  | .nil => ""
  | .cons k v .nil => squote ++ k ++ squote ++ ": " ++ pyRepr v
  | .cons k v rest =>
      squote ++ k ++ squote ++ ": " ++ pyRepr v ++ ", " ++ pyReprEntries rest
end

/-- Python `str` of a parsed TOML value, as an f-string interpolates it:
a string renders as itself (no quotes); other values render as `repr`. -/
def pyStr : Toml → String
  | .str s => s
  | t => pyRepr t

/-- Python `isinstance(v, dict)`. -/
def isDict : Toml → Bool
  | .table _ => true
  | _ => false

/-- Key membership in a table's entries. -/
def entriesHasKey : Entries → String → Bool
  | .nil, _ => false
  | .cons k _ rest, key => k == key || entriesHasKey rest key

/-- Python `k in v` for a dict `v`: key membership. -/
def dictHasKey : Toml → String → Bool
  | .table es, k => entriesHasKey es k
  | _, _ => false

/-- Lookup of a key in a table's entries (TOML keys are unique). -/
def entriesLookup : Entries → String → Option Toml
  | .nil, _ => none
  | .cons k v rest, key => if k == key then some v else entriesLookup rest key

/-- Python `v[k]` on a parsed TOML value, as an Option: `none` stands for
the KeyError/TypeError the script would raise (uncaught). -/
def lookupKey : Toml → String → Option Toml
  | .table es, k => entriesLookup es k
  | _, _ => none

/-- What the checker finds at a given path: no file, a file `toml.load`
rejects, or a file parsing to a TOML document. -/
inductive FileContent where
  | absent
  | malformed
  | parsed (t : Toml)

/-- The filesystem the checker reads, as a map from relative path to
content. -/
abbrev FS := String → FileContent

/-- The hardcoded member list of check-version-consistency.py. -/
def crates : List String :=
  ["leptos-motion-core",
   "leptos-motion-dom",
   "leptos-motion-gestures",
   "leptos-motion-layout",
   "leptos-motion-scroll",
   "leptos-motion-macros",
   "leptos-motion"]

/-- `f"crates/{crate}/Cargo.toml"`. -/
def cratePath (crate : String) : String :=
  "crates/" ++ crate ++ "/Cargo.toml"

/-- `f"Warning: {crate_path} not found, skipping..."`. -/
def warnMsg (crate : String) : String :=
  "Warning: " ++ cratePath crate ++ " not found, skipping..."

/-- `f"Version mismatch: {crate} has {crate_version}, workspace has
{workspace_version}"`. -/
def mismatchMsg (crate : String) (cv wv : Toml) : String :=
  "Version mismatch: " ++ crate ++ " has " ++ pyStr cv ++
    ", workspace has " ++ pyStr wv

/-- The success line the checker prints when no mismatch was found. -/
def successMsg : String := "All versions are consistent!"

/-- `workspace["workspace"]["package"]["version"]` on the root document. -/
def workspaceVersion (root : Toml) : Option Toml :=
  (lookupKey root "workspace").bind (fun w =>
    (lookupKey w "package").bind (fun p => lookupKey p "version"))

/-- `crate_toml["package"]["version"]` on a member document. -/
def memberVersion (m : Toml) : Option Toml :=
  (lookupKey m "package").bind (fun p => lookupKey p "version")

/-- What one iteration of the member loop does for one crate. -/
inductive StepResult where
  | skipped
  | ok
  | mismatch (cv : Toml)
  | crash

/-- One iteration of the checker's member loop: missing file warns and
skips; a malformed file or missing version field raises (uncaught); a
dict containing the key `workspace` is a workspace reference and passes;
otherwise the version is compared to the workspace version. -/
def memberStep (fs : FS) (wv : Toml) (crate : String) : StepResult :=
  match fs (cratePath crate) with
  | .absent => .skipped
  | .malformed => .crash
  | .parsed m =>
    match memberVersion m with
    | none => .crash
    | some cv =>
      if isDict cv && dictHasKey cv "workspace" then .ok
      else if tomlBEq cv wv then .ok
      else .mismatch cv

/-- Observable outcome of a checker run: the stdout lines and the exit
status, or an uncaught exception (with the lines printed before it). -/
inductive RunResult where
  | crash (output : List String)
  | done (output : List String) (exitCode : Nat)

/-- Prepend one stdout line to a run outcome. -/
def prependLine (l : String) : RunResult → RunResult
  | .crash out => .crash (l :: out)
  | .done out c => .done (l :: out) c

/-- The checker's member loop: fail-fast `sys.exit(1)` on the first
mismatch, warn-and-continue on a missing file, success line and exit 0
after the last member. -/
def checkLoop (fs : FS) (wv : Toml) : List String → RunResult
  | [] => .done [successMsg] 0
  | c :: rest =>
    match memberStep fs wv c with
    | .skipped => prependLine (warnMsg c) (checkLoop fs wv rest)
    | .ok => checkLoop fs wv rest
    | .mismatch cv => .done [mismatchMsg c cv wv] 1
    | .crash => .crash []

/-- The whole run of check-version-consistency.py: read and parse the
root manifest, extract the workspace version (uncaught failure if either
step fails), then run the member loop. -/
def runChecker (fs : FS) : RunResult :=
  match fs "Cargo.toml" with
  | .absent => .crash []
  | .malformed => .crash []
  | .parsed root =>
    match workspaceVersion root with
    | none => .crash []
    | some wv => checkLoop fs wv crates

/-- The stdout text of a run. -/
def RunResult.output : RunResult → List String
  | .crash out => out
  | .done out _ => out

/-- The process exit status of a run (an uncaught exception terminates
the interpreter with a non-zero status). -/
def RunResult.exitCode : RunResult → Nat
  | .crash _ => 1
  | .done _ c => c

/-- A member the loop walks past without failing: skipped or consistent. -/
def stepPasses (fs : FS) (wv : Toml) (c : String) : Bool :=
  match memberStep fs wv c with
  | .skipped => true
  | .ok => true
  | _ => false

/-- A member skipped because its manifest file is missing. -/
def stepSkipped (fs : FS) (wv : Toml) (c : String) : Bool :=
  match memberStep fs wv c with
  | .skipped => true
  | _ => false

/-! ## The three static dev server variants -/

/-- The three dev server scripts of the repository. -/
inductive Variant where
  | capabilityShowcase   -- examples/capability-showcase/serve.py
  | comprehensiveDemo    -- examples/comprehensive-demo/serve.py
  | webglDemo            -- examples/webgl-demo/server.py
deriving DecidableEq

/-- The header lines each variant's overridden `end_headers` appends
(via `send_header`) before delegating to the base handler, in source
order. -/
def extraHeaders : Variant → List (String × String)
  | .capabilityShowcase =>
      [("Access-Control-Allow-Origin", "*"),
       ("Access-Control-Allow-Methods", "GET, POST, OPTIONS"),
       ("Access-Control-Allow-Headers", "Content-Type")]
  | .comprehensiveDemo =>
      [("Access-Control-Allow-Origin", "*"),
       ("Access-Control-Allow-Methods", "GET, POST, OPTIONS"),
       ("Access-Control-Allow-Headers", "Content-Type")]
  | .webglDemo =>
      [("Cross-Origin-Embedder-Policy", "require-corp"),
       ("Cross-Origin-Opener-Policy", "same-origin"),
       ("Access-Control-Allow-Origin", "*"),
       ("Access-Control-Allow-Methods", "GET, POST, OPTIONS"),
       ("Access-Control-Allow-Headers", "Content-Type")]

/-- The full header list of a response: whatever the base handler
buffered for this request (status-dependent headers, content type, ...)
followed by the variant's unconditional extra headers, which
`end_headers` appends for every response regardless of method or path. -/
def responseHeaders (v : Variant) (buffered : List (String × String)) :
    List (String × String) :=
  buffered ++ extraHeaders v

/-- The `mimetypes.add_type` registrations each variant's script
performs at module load.  Only comprehensive-demo/serve.py registers
the WASM type; the other two scripts contain no registration. -/
def mimeRegistrations : Variant → List (String × String)
  | .capabilityShowcase => []
  | .comprehensiveDemo => [(".wasm", "application/wasm")]
  | .webglDemo => []

/-- Content-type inference for a file extension: an explicit
registration takes priority over the Python installation's default
inference table, which varies with the runtime and is therefore kept
abstract. -/
def guessContentType (v : Variant) (defaults : String → Option String)
    (ext : String) : Option String :=
  match List.lookup ext (mimeRegistrations v) with
  | some t => some t
  | none => defaults ext

/-- A default inference table with no entry at all. -/
def emptyDefaults : String → Option String := fun _ => none

/-- How each variant's main code treats a KeyboardInterrupt raised in
`serve_forever`, read off the script's try/except structure. -/
inductive InterruptHandling where
  | printAndReturn    -- except KeyboardInterrupt: print(...); fall off main
  | printAndExitZero  -- except KeyboardInterrupt: print(...); sys.exit(0)
  | uncaught          -- no except clause around serve_forever

/-- The interrupt handling present in each script's source. -/
def interruptHandling : Variant → InterruptHandling
  | .capabilityShowcase => .printAndReturn
  | .comprehensiveDemo => .uncaught
  | .webglDemo => .printAndExitZero

/-- All three scripts run the server inside a `with TCPServer(...)`
block, so the listener socket is closed on every exit path, including
exception propagation. -/
def listenerClosedOnInterrupt : Variant → Bool := fun _ => true

/-- The process exit status on an operator interrupt: `some 0` when the
script catches KeyboardInterrupt and finishes normally (or calls
`sys.exit(0)`); `none` when the exception propagates uncaught, which
terminates the interpreter with a non-zero status. -/
def exitStatusOnInterrupt (v : Variant) : Option Nat :=
  match interruptHandling v with
  | .printAndReturn => some 0
  | .printAndExitZero => some 0
  | .uncaught => none

/-! ## Log suppression in the capability-showcase variant -/

/-- Python's substring operator `needle in hay`. -/
def pyIn (needle hay : String) : Bool :=
  decide (needle.toList <:+: hay.toList)

/-- Python `repr` of one string argument: single-quoted.  (Escaping is
not modelled; log arguments are request lines, status codes and sizes,
none of which contain quotes or backslashes.) -/
def pyReprStr (s : String) : String := squote ++ s ++ squote

/-- The comma-space-separated body of `str(args)` for a tuple of
strings. -/
def tupleBody : List String → String
  | [] => ""
  | [a] => pyReprStr a
  | a :: rest => pyReprStr a ++ ", " ++ tupleBody rest

/-- Python `str(args)` for the handler's `*args` tuple of strings:
parenthesised, comma-separated reprs, with the 1-tuple trailing comma. -/
def strOfArgsTuple : List String → String
  | [] => "()"
  | [a] => "(" ++ pyReprStr a ++ ",)"
  | args => "(" ++ tupleBody args ++ ")"

/-- capability-showcase `log_message`: if `"Broken pipe"` occurs in
`str(args)` the invocation is suppressed entirely (`none`); otherwise
the format string and arguments are passed to the base handler's
`log_message` (`some`). -/
def logMessage (fmt : String) (args : List String) :
    Option (String × List String) :=
  if pyIn "Broken pipe" (strOfArgsTuple args) then none
  else some (fmt, args)

/-! ## Concrete manifests and filesystems used to instantiate the
theorems on small inputs -/

/-- A root manifest declaring workspace version `1.2.0`. -/
def rootManifest : Toml :=
  .table (.cons "workspace"
    (.table (.cons "package"
      (.table (.cons "version" (.str "1.2.0") .nil)) .nil)) .nil)

/-- A member manifest with literal version `1.1.9`. -/
def memberManifest119 : Toml :=
  .table (.cons "package"
    (.table (.cons "version" (.str "1.1.9") .nil)) .nil)

/-- A member manifest with literal version `1.2.0`. -/
def memberManifest120 : Toml :=
  .table (.cons "package"
    (.table (.cons "version" (.str "1.2.0") .nil)) .nil)

/-- A member manifest whose version field is the structured workspace
reference `version.workspace = true`. -/
def memberManifestWsRef : Toml :=
  .table (.cons "package"
    (.table (.cons "version"
      (.table (.cons "workspace" (.bool true) .nil)) .nil)) .nil)

/-- A member manifest whose version field is a dict without the key
`workspace`. -/
def memberManifestDictVer : Toml :=
  .table (.cons "package"
    (.table (.cons "version"
      (.table (.cons "path" (.str "../core") .nil)) .nil)) .nil)

/-- Filesystem: workspace at `1.2.0`, first member at literal `1.1.9`,
all other members absent. -/
def fsMismatch : FS := fun p =>
  if p = "Cargo.toml" then .parsed rootManifest
  else if p = "crates/leptos-motion-core/Cargo.toml" then .parsed memberManifest119
  else .absent

/-- Filesystem: only one member present, with a structured workspace
version reference. -/
def fsWsRef : FS := fun p =>
  if p = "crates/leptos-motion-dom/Cargo.toml" then .parsed memberManifestWsRef
  else .absent

/-- Filesystem: workspace at `1.2.0`, first member at literal `1.2.0`,
all other members absent. -/
def fsOneConsistent : FS := fun p =>
  if p = "Cargo.toml" then .parsed rootManifest
  else if p = "crates/leptos-motion-core/Cargo.toml" then .parsed memberManifest120
  else .absent

/-- Filesystem: only the root manifest exists. -/
def fsRootOnly : FS := fun p =>
  if p = "Cargo.toml" then .parsed rootManifest
  else .absent

/-- Filesystem: workspace at `1.2.0`, first member with a dict version
field lacking the key `workspace`, all other members absent. -/
def fsDictVer : FS := fun p =>
  if p = "Cargo.toml" then .parsed rootManifest
  else if p = "crates/leptos-motion-core/Cargo.toml" then .parsed memberManifestDictVer
  else .absent

/-! ## Helper lemmas -/

lemma pyIn_eq_true_iff (needle hay : String) :
    pyIn needle hay = true ↔ needle.toList <:+: hay.toList := by
  simp [pyIn]

lemma toList_append (s t : String) : (s ++ t).toList = s.toList ++ t.toList := rfl

lemma infix_append_left {α : Type} {l m : List α} (pre : List α)
    (h : l <:+: m) : l <:+: pre ++ m := by
  obtain ⟨s, t, rfl⟩ := h
  exact ⟨pre ++ s, t, by simp [List.append_assoc]⟩

lemma infix_append_right {α : Type} {l m : List α} (post : List α)
    (h : l <:+: m) : l <:+: m ++ post := by
  obtain ⟨s, t, rfl⟩ := h
  exact ⟨s, t ++ post, by simp [List.append_assoc]⟩

lemma self_infix_pyReprStr (a : String) : a.toList <:+: (pyReprStr a).toList :=
  ⟨squote.toList, squote.toList, rfl⟩

lemma reprStr_infix_tupleBody {a : String} :
    ∀ {args : List String}, a ∈ args →
      (pyReprStr a).toList <:+: (tupleBody args).toList := by
  intro args h
  induction args with
  | nil => cases h
  | cons x rest ih =>
    rcases List.mem_cons.mp h with rfl | hmem
    · cases rest with
      | nil => exact ⟨[], [], by simp [tupleBody]⟩
      | cons y t =>
          refine ⟨[], (", " ++ tupleBody (y :: t)).toList, ?_⟩
          simp [tupleBody, toList_append, List.append_assoc]
    · cases rest with
      | nil => cases hmem
      | cons y t =>
          have h2 := ih hmem
          have := infix_append_left (pyReprStr x ++ ", ").toList h2
          simpa [tupleBody, toList_append, List.append_assoc] using this

lemma arg_infix_strOfArgsTuple {a : String} {args : List String} (h : a ∈ args) :
    a.toList <:+: (strOfArgsTuple args).toList := by
  cases args with
  | nil => cases h
  | cons x rest =>
    cases rest with
    | nil =>
        rcases List.mem_cons.mp h with rfl | hmem
        · have h1 := self_infix_pyReprStr a
          have h2 := infix_append_right (",)" : String).toList
            (infix_append_left ("(" : String).toList h1)
          simpa [strOfArgsTuple, toList_append, List.append_assoc] using h2
        · cases hmem
    | cons y t =>
        have h1 : (pyReprStr a).toList <:+: (tupleBody (x :: y :: t)).toList :=
          reprStr_infix_tupleBody h
        have h2 := (self_infix_pyReprStr a).trans h1
        have h3 := infix_append_right (")" : String).toList
          (infix_append_left ("(" : String).toList h2)
        simpa [strOfArgsTuple, toList_append, List.append_assoc] using h3

/-! ## Theorems about the dev server variants -/

/-- C2: every response of each of the three dev server variants carries
the three CORS headers with exactly the specified values, whatever the
base handler buffered for the particular request method and path. -/
theorem cors_headers_on_every_response (v : Variant)
    (buffered : List (String × String)) :
    ("Access-Control-Allow-Origin", "*") ∈ responseHeaders v buffered ∧
    ("Access-Control-Allow-Methods", "GET, POST, OPTIONS") ∈ responseHeaders v buffered ∧
    ("Access-Control-Allow-Headers", "Content-Type") ∈ responseHeaders v buffered := by
  cases v <;> simp [responseHeaders, extraHeaders]

/-- C5 counterexample: the capability-showcase variant performs no
explicit WASM MIME registration, so with a default inference table that
omits `.wasm` its content-type inference does not return
`application/wasm`. -/
theorem capability_showcase_no_wasm_registration :
    mimeRegistrations Variant.capabilityShowcase = [] ∧
    guessContentType Variant.capabilityShowcase emptyDefaults ".wasm" = none :=
  ⟨rfl, rfl⟩

/-- C5 amended: only the comprehensive-demo variant registers the WASM
MIME type explicitly, and there a `.wasm` path gets content type
`application/wasm` whatever the runtime's default table holds; the
other two variants fall through to the default table. -/
theorem wasm_mime_registration_per_variant :
    (∀ d : String → Option String,
      guessContentType Variant.comprehensiveDemo d ".wasm" = some "application/wasm") ∧
    (∀ d : String → Option String,
      guessContentType Variant.capabilityShowcase d ".wasm" = d ".wasm") ∧
    (∀ d : String → Option String,
      guessContentType Variant.webglDemo d ".wasm" = d ".wasm") :=
  ⟨fun _ => rfl, fun _ => rfl, fun _ => rfl⟩

/-- C6 counterexample: the comprehensive-demo variant has no handler for
the operator interrupt, so the interrupt propagates uncaught and the
process does not exit with status 0. -/
theorem comprehensive_demo_interrupt_not_clean :
    exitStatusOnInterrupt Variant.comprehensiveDemo = none ∧
    exitStatusOnInterrupt Variant.comprehensiveDemo ≠ some 0 :=
  ⟨rfl, by simp [exitStatusOnInterrupt, interruptHandling]⟩

/-- C6 amended: on an operator interrupt every variant closes its
listener (the `with` block guarantees it on all exit paths), the
capability-showcase and webgl-demo variants exit with status 0, and the
comprehensive-demo variant lets the interrupt propagate uncaught and
terminates with a non-zero status. -/
theorem interrupt_shutdown_per_variant :
    (∀ v : Variant, listenerClosedOnInterrupt v = true) ∧
    exitStatusOnInterrupt Variant.capabilityShowcase = some 0 ∧
    exitStatusOnInterrupt Variant.webglDemo = some 0 ∧
    exitStatusOnInterrupt Variant.comprehensiveDemo = none :=
  ⟨fun _ => rfl, rfl, rfl, rfl⟩

/-- C10: in the capability-showcase variant, log suppression is a
substring test over the stringified argument tuple, so any log
invocation one of whose arguments contains `Broken pipe` — including an
ordinary request log line whose request path contains that text —
produces no output at all. -/
theorem capability_showcase_log_suppression
    (fmt a : String) (args : List String)
    (ha : a ∈ args) (hsub : pyIn "Broken pipe" a = true) :
    logMessage fmt args = none := by
  have h1 : ("Broken pipe" : String).toList <:+: a.toList :=
    (pyIn_eq_true_iff _ _).mp hsub
  have h2 : a.toList <:+: (strOfArgsTuple args).toList :=
    arg_infix_strOfArgsTuple ha
  have h3 : pyIn "Broken pipe" (strOfArgsTuple args) = true :=
    (pyIn_eq_true_iff _ _).mpr (h1.trans h2)
  simp [logMessage, h3]

/-- C10 witness: a request log line for the path `/Broken pipe` is
suppressed. -/
theorem capability_showcase_log_suppression_witness :
    ("GET /Broken pipe HTTP/1.1" ∈ ["GET /Broken pipe HTTP/1.1", "200", "-"]) ∧
    pyIn "Broken pipe" "GET /Broken pipe HTTP/1.1" = true ∧
    logMessage "%s - %s %s" ["GET /Broken pipe HTTP/1.1", "200", "-"] = none :=
  ⟨by simp, by decide,
    capability_showcase_log_suppression "%s - %s %s" "GET /Broken pipe HTTP/1.1"
      ["GET /Broken pipe HTTP/1.1", "200", "-"] (by simp) (by decide)⟩

/-! ## Helper lemmas about the checker loop -/

lemma memberStep_congr (fs fs2 : FS) (wv : Toml) (c : String)
    (h : fs2 (cratePath c) = fs (cratePath c)) :
    memberStep fs2 wv c = memberStep fs wv c := by
  unfold memberStep
  rw [h]

lemma stepPasses_congr (fs fs2 : FS) (wv : Toml) (c : String)
    (h : fs2 (cratePath c) = fs (cratePath c)) :
    stepPasses fs2 wv c = stepPasses fs wv c := by
  unfold stepPasses
  rw [memberStep_congr fs fs2 wv c h]

lemma stepSkipped_congr (fs fs2 : FS) (wv : Toml) (c : String)
    (h : fs2 (cratePath c) = fs (cratePath c)) :
    stepSkipped fs2 wv c = stepSkipped fs wv c := by
  unfold stepSkipped
  rw [memberStep_congr fs fs2 wv c h]

lemma checkLoop_allPass (fs : FS) (wv : Toml) (l : List String)
    (h : ∀ c ∈ l, stepPasses fs wv c = true) :
    checkLoop fs wv l =
      .done ((l.filter (stepSkipped fs wv)).map warnMsg ++ [successMsg]) 0 := by
  induction l with
  | nil => rfl
  | cons c rest ih =>
    have hc := h c (List.mem_cons_self c rest)
    have hrest : ∀ x ∈ rest, stepPasses fs wv x = true :=
      fun x hx => h x (List.mem_cons_of_mem _ hx)
    rw [checkLoop]
    cases hms : memberStep fs wv c with
    | skipped =>
        rw [ih hrest]
        simp [prependLine, List.filter_cons, stepSkipped, hms]
    | ok =>
        rw [ih hrest]
        simp [List.filter_cons, stepSkipped, hms]
    | mismatch cv => simp [stepPasses, hms] at hc
    | crash => simp [stepPasses, hms] at hc

lemma checkLoop_firstFail (fs : FS) (wv cv : Toml) (c : String)
    (pre rest : List String)
    (hpre : ∀ x ∈ pre, stepPasses fs wv x = true)
    (hc : memberStep fs wv c = .mismatch cv) :
    checkLoop fs wv (pre ++ c :: rest) =
      .done ((pre.filter (stepSkipped fs wv)).map warnMsg ++
        [mismatchMsg c cv wv]) 1 := by
  induction pre with
  | nil =>
      rw [List.nil_append, checkLoop, hc]
      simp
  | cons p ps ih =>
      have hp := hpre p (List.mem_cons_self p ps)
      have hps : ∀ x ∈ ps, stepPasses fs wv x = true :=
        fun x hx => hpre x (List.mem_cons_of_mem _ hx)
      rw [List.cons_append, checkLoop]
      cases hms : memberStep fs wv p with
      | skipped =>
          rw [ih hps]
          simp [prependLine, List.filter_cons, stepSkipped, hms]
      | ok =>
          rw [ih hps]
          simp [List.filter_cons, stepSkipped, hms]
      | mismatch cv2 => simp [stepPasses, hms] at hp
      | crash => simp [stepPasses, hms] at hp

/-! ## Theorems about the version checker -/

/-- C1: when the first member of the hardcoded list that neither passes
nor is skipped has an existing manifest declaring a literal version
string different from the workspace version, the checker prints the
mismatch message naming that member, its literal version and the
workspace version, exits with status 1, and no member later in the list
is examined (the outcome is unchanged under any modification of the
filesystem at the later members' paths). -/
theorem checker_failfast_first_literal_mismatch
    (fs : FS) (root wv m : Toml) (s c : String) (pre rest : List String)
    (hroot : fs "Cargo.toml" = FileContent.parsed root)
    (hwv : workspaceVersion root = some wv)
    (hcrates : crates = pre ++ c :: rest)
    (hpre : ∀ x ∈ pre, stepPasses fs wv x = true)
    (hm : fs (cratePath c) = FileContent.parsed m)
    (hv : memberVersion m = some (Toml.str s))
    (hne : tomlBEq (Toml.str s) wv = false) :
    runChecker fs = RunResult.done
      ((pre.filter (stepSkipped fs wv)).map warnMsg ++
        ["Version mismatch: " ++ c ++ " has " ++ s ++ ", workspace has " ++ pyStr wv]) 1 ∧
    ∀ fs2 : FS, fs2 "Cargo.toml" = fs "Cargo.toml" →
      (∀ x ∈ pre, fs2 (cratePath x) = fs (cratePath x)) →
      fs2 (cratePath c) = fs (cratePath c) →
      runChecker fs2 = runChecker fs := by
  have hstep : memberStep fs wv c = .mismatch (.str s) := by
    unfold memberStep
    simp [hm, hv, isDict, hne]
  have hmsg : mismatchMsg c (.str s) wv =
      "Version mismatch: " ++ c ++ " has " ++ s ++ ", workspace has " ++ pyStr wv := rfl
  have hmain : runChecker fs = RunResult.done
      ((pre.filter (stepSkipped fs wv)).map warnMsg ++
        [mismatchMsg c (.str s) wv]) 1 := by
    simp only [runChecker, hroot, hwv, hcrates]
    exact checkLoop_firstFail fs wv (.str s) c pre rest hpre hstep
  refine ⟨by rw [hmain, hmsg], ?_⟩
  intro fs2 h0 h1 h2
  have hstep2 : memberStep fs2 wv c = .mismatch (.str s) := by
    rw [memberStep_congr fs fs2 wv c h2, hstep]
  have hpre2 : ∀ x ∈ pre, stepPasses fs2 wv x = true := fun x hx => by
    rw [stepPasses_congr fs fs2 wv x (h1 x hx)]
    exact hpre x hx
  have hfilt : pre.filter (stepSkipped fs2 wv) = pre.filter (stepSkipped fs wv) :=
    List.filter_congr (fun x hx => stepSkipped_congr fs fs2 wv x (h1 x hx))
  have hmain2 : runChecker fs2 = RunResult.done
      ((pre.filter (stepSkipped fs wv)).map warnMsg ++
        [mismatchMsg c (.str s) wv]) 1 := by
    simp only [runChecker, h0, hroot, hwv, hcrates]
    rw [checkLoop_firstFail fs2 wv (.str s) c pre rest hpre2 hstep2, hfilt]
  rw [hmain2, hmain]

/-- C1 witness: workspace `1.2.0`, first member at literal `1.1.9`. -/
theorem checker_failfast_first_literal_mismatch_witness :
    tomlBEq (Toml.str "1.1.9") (Toml.str "1.2.0") = false ∧
    runChecker fsMismatch = RunResult.done
      ["Version mismatch: leptos-motion-core has 1.1.9, workspace has 1.2.0"] 1 := by
  have h := checker_failfast_first_literal_mismatch fsMismatch rootManifest
    (Toml.str "1.2.0") memberManifest119 "1.1.9" "leptos-motion-core" []
    ["leptos-motion-dom", "leptos-motion-gestures", "leptos-motion-layout",
     "leptos-motion-scroll", "leptos-motion-macros", "leptos-motion"]
    rfl rfl rfl (by simp) rfl rfl (by decide)
  refine ⟨by decide, ?_⟩
  rw [h.1]
  rfl

/-- C3: a member whose version field is a structured workspace
reference (a dict containing the key `workspace`) is treated as
consistent and the loop continues with the next member, whatever the
workspace version is. -/
theorem checker_workspace_ref_consistent
    (fs : FS) (wv m cv : Toml) (c : String) (rest : List String)
    (hm : fs (cratePath c) = FileContent.parsed m)
    (hv : memberVersion m = some cv)
    (hdict : isDict cv = true)
    (hkey : dictHasKey cv "workspace" = true) :
    memberStep fs wv c = StepResult.ok ∧
    checkLoop fs wv (c :: rest) = checkLoop fs wv rest := by
  have hstep : memberStep fs wv c = .ok := by
    unfold memberStep
    simp [hm, hv, hdict, hkey]
  refine ⟨hstep, ?_⟩
  rw [checkLoop, hstep]

/-- C3 witness: a `version.workspace = true` member is consistent under
an arbitrary workspace version `9.9.9`. -/
theorem checker_workspace_ref_consistent_witness :
    dictHasKey (Toml.table (.cons "workspace" (.bool true) .nil)) "workspace" = true ∧
    memberStep fsWsRef (Toml.str "9.9.9") "leptos-motion-dom" = StepResult.ok ∧
    checkLoop fsWsRef (Toml.str "9.9.9") ["leptos-motion-dom"] =
      checkLoop fsWsRef (Toml.str "9.9.9") [] := by
  have h := checker_workspace_ref_consistent fsWsRef (Toml.str "9.9.9")
    memberManifestWsRef (Toml.table (.cons "workspace" (.bool true) .nil))
    "leptos-motion-dom" [] rfl rfl rfl rfl
  exact ⟨rfl, h.1, h.2⟩

/-- C4: members with missing manifest files are skipped with a printed
warning and are not failures: when every member is skipped or
consistent, the checker prints one warning per skipped member followed
by the success message and exits with status 0. -/
theorem checker_missing_skipped_and_success
    (fs : FS) (root wv : Toml)
    (hroot : fs "Cargo.toml" = FileContent.parsed root)
    (hwv : workspaceVersion root = some wv)
    (hpass : ∀ c ∈ crates, stepPasses fs wv c = true) :
    (∀ (c : String) (rest : List String), fs (cratePath c) = FileContent.absent →
      checkLoop fs wv (c :: rest) = prependLine (warnMsg c) (checkLoop fs wv rest)) ∧
    runChecker fs = RunResult.done
      ((crates.filter (stepSkipped fs wv)).map warnMsg ++ [successMsg]) 0 ∧
    ∀ c ∈ crates, fs (cratePath c) = FileContent.absent →
      warnMsg c ∈ (runChecker fs).output := by
  have hcont : ∀ (c : String) (rest : List String),
      fs (cratePath c) = FileContent.absent →
      checkLoop fs wv (c :: rest) = prependLine (warnMsg c) (checkLoop fs wv rest) := by
    intro c rest habs
    have hstep : memberStep fs wv c = .skipped := by
      unfold memberStep
      rw [habs]
    rw [checkLoop, hstep]
  have hmain : runChecker fs = RunResult.done
      ((crates.filter (stepSkipped fs wv)).map warnMsg ++ [successMsg]) 0 := by
    simp only [runChecker, hroot, hwv]
    exact checkLoop_allPass fs wv crates hpass
  refine ⟨hcont, hmain, ?_⟩
  intro c hc habs
  have hskip : stepSkipped fs wv c = true := by
    unfold stepSkipped memberStep
    rw [habs]
  rw [hmain]
  have hmem : warnMsg c ∈ (crates.filter (stepSkipped fs wv)).map warnMsg :=
    List.mem_map_of_mem _ (List.mem_filter.mpr ⟨hc, hskip⟩)
  exact List.mem_append.mpr (Or.inl hmem)

/-- C4 witness: one member consistent at the workspace version, the six
others missing: six warnings, the success line, exit status 0. -/
theorem checker_missing_skipped_and_success_witness :
    (∀ c ∈ crates, stepPasses fsOneConsistent (Toml.str "1.2.0") c = true) ∧
    runChecker fsOneConsistent = RunResult.done
      ["Warning: crates/leptos-motion-dom/Cargo.toml not found, skipping...",
       "Warning: crates/leptos-motion-gestures/Cargo.toml not found, skipping...",
       "Warning: crates/leptos-motion-layout/Cargo.toml not found, skipping...",
       "Warning: crates/leptos-motion-scroll/Cargo.toml not found, skipping...",
       "Warning: crates/leptos-motion-macros/Cargo.toml not found, skipping...",
       "Warning: crates/leptos-motion/Cargo.toml not found, skipping...",
       "All versions are consistent!"] 0 := by
  have hpass : ∀ c ∈ crates, stepPasses fsOneConsistent (Toml.str "1.2.0") c = true := by
    decide
  have h := checker_missing_skipped_and_success fsOneConsistent rootManifest
    (Toml.str "1.2.0") rfl rfl hpass
  refine ⟨hpass, ?_⟩
  rw [h.2.1]
  rfl

/-- C7: the checker is a deterministic function of the filesystem
contents it reads: two runs over identical file contents produce
identical stdout text and identical exit status. -/
theorem checker_deterministic (fs1 fs2 : FS) (h : ∀ p, fs1 p = fs2 p) :
    (runChecker fs1).output = (runChecker fs2).output ∧
    (runChecker fs1).exitCode = (runChecker fs2).exitCode := by
  have heq : fs1 = fs2 := funext h
  subst heq
  exact ⟨rfl, rfl⟩

/-- C7 witness: two runs over the same concrete filesystem. -/
theorem checker_deterministic_witness :
    (∀ p, fsMismatch p = fsMismatch p) ∧
    (runChecker fsMismatch).output = (runChecker fsMismatch).output ∧
    (runChecker fsMismatch).exitCode = (runChecker fsMismatch).exitCode :=
  ⟨fun _ => rfl, checker_deterministic fsMismatch fsMismatch (fun _ => rfl)⟩

/-- C8: a member whose version field is a dict without the key
`workspace` is not treated as an inheritance marker: the dict compares
unequal to the workspace version string and, when that member is the
first non-passing one, the run exits with status 1 and its mismatch
message. -/
theorem checker_dict_without_workspace_key_mismatch
    (fs : FS) (root m : Toml) (es : Entries) (ws c : String)
    (pre rest : List String)
    (hroot : fs "Cargo.toml" = FileContent.parsed root)
    (hwv : workspaceVersion root = some (Toml.str ws))
    (hcrates : crates = pre ++ c :: rest)
    (hpre : ∀ x ∈ pre, stepPasses fs (Toml.str ws) x = true)
    (hm : fs (cratePath c) = FileContent.parsed m)
    (hv : memberVersion m = some (Toml.table es))
    (hkey : dictHasKey (Toml.table es) "workspace" = false) :
    tomlBEq (Toml.table es) (Toml.str ws) = false ∧
    memberStep fs (Toml.str ws) c = StepResult.mismatch (Toml.table es) ∧
    runChecker fs = RunResult.done
      ((pre.filter (stepSkipped fs (Toml.str ws))).map warnMsg ++
        [mismatchMsg c (Toml.table es) (Toml.str ws)]) 1 := by
  have hne : tomlBEq (Toml.table es) (Toml.str ws) = false := rfl
  have hstep : memberStep fs (Toml.str ws) c = .mismatch (.table es) := by
    unfold memberStep
    simp [hm, hv, hkey, hne, isDict]
  refine ⟨hne, hstep, ?_⟩
  simp only [runChecker, hroot, hwv, hcrates]
  exact checkLoop_firstFail fs (Toml.str ws) (.table es) c pre rest hpre hstep

/-- C8 witness: a member version `\x7bpath = "../core"\x7d` against
workspace `1.2.0` fails the run with its mismatch message. -/
theorem checker_dict_without_workspace_key_mismatch_witness :
    dictHasKey (Toml.table (.cons "path" (.str "../core") .nil)) "workspace" = false ∧
    runChecker fsDictVer = RunResult.done
      [mismatchMsg "leptos-motion-core"
        (Toml.table (.cons "path" (.str "../core") .nil)) (Toml.str "1.2.0")] 1 := by
  have h := checker_dict_without_workspace_key_mismatch fsDictVer rootManifest
    memberManifestDictVer (.cons "path" (.str "../core") .nil) "1.2.0"
    "leptos-motion-core" []
    ["leptos-motion-dom", "leptos-motion-gestures", "leptos-motion-layout",
     "leptos-motion-scroll", "leptos-motion-macros", "leptos-motion"]
    rfl rfl rfl (by simp) rfl rfl rfl
  refine ⟨rfl, ?_⟩
  rw [h.2.2]
  rfl

/-- C9: when every member manifest is absent, the checker warns once
per member (in list order), never reaches a version comparison (every
step is a skip), and exits with status 0 after the success message. -/
theorem checker_all_absent_vacuous_success
    (fs : FS) (root wv : Toml)
    (hroot : fs "Cargo.toml" = FileContent.parsed root)
    (hwv : workspaceVersion root = some wv)
    (habs : ∀ c ∈ crates, fs (cratePath c) = FileContent.absent) :
    (∀ c ∈ crates, memberStep fs wv c = StepResult.skipped) ∧
    runChecker fs = RunResult.done (crates.map warnMsg ++ [successMsg]) 0 := by
  have hskip : ∀ c ∈ crates, memberStep fs wv c = .skipped := fun c hc => by
    unfold memberStep
    rw [habs c hc]
  have hpass : ∀ c ∈ crates, stepPasses fs wv c = true := fun c hc => by
    unfold stepPasses
    rw [hskip c hc]
  have hfilter : crates.filter (stepSkipped fs wv) = crates :=
    List.filter_eq_self.mpr (fun c hc => by
      unfold stepSkipped
      rw [hskip c hc])
  have hmain : runChecker fs = RunResult.done
      ((crates.filter (stepSkipped fs wv)).map warnMsg ++ [successMsg]) 0 := by
    simp only [runChecker, hroot, hwv]
    exact checkLoop_allPass fs wv crates hpass
  rw [hfilter] at hmain
  exact ⟨hskip, hmain⟩

/-- C9 witness: root manifest only; seven warnings, success, exit 0. -/
theorem checker_all_absent_vacuous_success_witness :
    (∀ c ∈ crates, fsRootOnly (cratePath c) = FileContent.absent) ∧
    runChecker fsRootOnly = RunResult.done
      ["Warning: crates/leptos-motion-core/Cargo.toml not found, skipping...",
       "Warning: crates/leptos-motion-dom/Cargo.toml not found, skipping...",
       "Warning: crates/leptos-motion-gestures/Cargo.toml not found, skipping...",
       "Warning: crates/leptos-motion-layout/Cargo.toml not found, skipping...",
       "Warning: crates/leptos-motion-scroll/Cargo.toml not found, skipping...",
       "Warning: crates/leptos-motion-macros/Cargo.toml not found, skipping...",
       "Warning: crates/leptos-motion/Cargo.toml not found, skipping...",
       "All versions are consistent!"] 0 := by
  have habs : ∀ c ∈ crates, fsRootOnly (cratePath c) = FileContent.absent := by
    intro c hc
    fin_cases hc <;> rfl
  have h := checker_all_absent_vacuous_success fsRootOnly rootManifest
    (Toml.str "1.2.0") rfl rfl habs
  refine ⟨habs, ?_⟩
  rw [h.2]
  rfl

end LeptosMotion
